import Mathlib

set_option maxRecDepth 100000

/-!
Shallow embedding of `src/app.py` (a heuristic news-scraping service):
`detect_news_links`, `parse_news_content`, `process_site` and the
`/parse_news` endpoint, over an explicit HTML document model.

Modelling conventions:
* The external page fetch is an oracle (`Option Node` for a root page,
  `Fetched` per processed link); the parsed document is a `Node` tree.
* BeautifulSoup's `find`/`find_all`/`select` search the strict
  descendants of a tag in document (preorder) order.
* `get_text(strip=True)` strips each text leaf and concatenates.
* BeautifulSoup tags compare and hash by their rendered markup, so the
  `unique_links` set is keyed on rendered markup; its iteration order is
  not a function of the parsed markup and is passed in explicitly (the
  `ord` reordering parameter).  The returned `list(news_links)` is the
  iteration of a second, string-keyed set whose order depends on the
  process hash seed; the embedding returns that set in insertion order,
  so the theorems below assert only order-insensitive facts about it
  (membership, length, permutation class).
* Machine-level caveats that cannot influence the claims: `\d` and
  `str.isdigit` are modelled as ASCII digits, `str.lower` as ASCII plus
  Cyrillic lowering, `urljoin` for the base forms the code produces
  (`scheme://host` against absolute, root-relative and bare-relative
  hrefs).
-/

namespace NewsParser

/-- Substring test: `pat` occurs somewhere inside `hay` (Python's `in`). -/
def substrB (hay pat : String) : Bool :=
  hay.data.tails.any (fun t => pat.data.isPrefixOf t)

/-- `str.lower` restricted to the alphabets the program manipulates:
ASCII letters and Cyrillic А..Я / Ё. -/
def pyLowerChar (c : Char) : Char :=
  if 'A' ≤ c && c ≤ 'Z' then Char.ofNat (c.toNat + 32)
  else if 'А' ≤ c && c ≤ 'Я' then Char.ofNat (c.toNat + 32)
  else if c = 'Ё' then 'ё'
  else c

def pyToLower (s : String) : String := (s.data.map pyLowerChar).asString

/-- `" ".join(l)`. -/
def joinSp : List String → String
  | [] => ""
  | [s] => s
  | s :: rest => s ++ " " ++ joinSp rest

/-- `str.strip()`. -/
def pyStrip (s : String) : String :=
  (((s.data.dropWhile Char.isWhitespace).reverse.dropWhile Char.isWhitespace).reverse).asString

/-- `startswith`. -/
def startsWithB (s pre : String) : Bool := pre.data.isPrefixOf s.data

/-- Split on the characters satisfying `p`, dropping separators and
empty pieces (callers that use Python's `split` filter out the empty
pieces right after, so only the non-empty pieces are modelled). -/
def splitByPAux (p : Char → Bool) : List Char → List Char → List (List Char)
  | [], cur => if cur.isEmpty then [] else [cur.reverse]
  | c :: cs, cur =>
    if p c then
      if cur.isEmpty then splitByPAux p cs []
      else cur.reverse :: splitByPAux p cs []
    else splitByPAux p cs (c :: cur)

def splitByP (p : Char → Bool) (cs : List Char) : List (List Char) :=
  splitByPAux p cs []

/-- The HTML document model: element nodes carry an identity (standing
in for CPython object identity), a tag name, attributes and children;
text nodes carry a string. -/
inductive Node where
  | txt (s : String)
  | elem (nid : Nat) (tag : String) (attrs : List (String × String)) (children : List Node)
deriving Repr

def isElem : Node → Bool
  | .txt _ => false
  | .elem _ _ _ _ => true

def tagOf : Node → String
  | .txt _ => ""
  | .elem _ t _ _ => t

def nidOf : Node → Nat
  | .txt _ => 0
  | .elem i _ _ _ => i

def attrsOf : Node → List (String × String)
  | .txt _ => []
  | .elem _ _ a _ => a

def getAttr (n : Node) (k : String) : Option String :=
  (attrsOf n).lookup k

def getAttrD (n : Node) (k d : String) : String :=
  (getAttr n k).getD d

def hasAttr (n : Node) (k : String) : Bool :=
  (getAttr n k).isSome

/-- The multi-valued `class` attribute, split on whitespace as
BeautifulSoup does. -/
def classesOf (n : Node) : List String :=
  (splitByP Char.isWhitespace (getAttrD n "class" "").data).map List.asString

mutual
/-- Strict descendants in document (preorder) order — the search space
of `tag.find_all` / `tag.select`. -/
def descendants : Node → List Node
  | .txt _ => []
  | .elem _ _ _ cs => descendantsL cs
def descendantsL : List Node → List Node
  | [] => []
  | c :: cs => c :: (descendants c ++ descendantsL cs)
end

mutual
/-- `get_text(strip=True)`: each text leaf stripped, then concatenated. -/
def textOf : Node → String
  | .txt s => pyStrip s
  | .elem _ _ _ cs => textOfL cs
def textOfL : List Node → String
  | [] => ""
  | c :: cs => textOf c ++ textOfL cs
end

def findFirstD (p : Node → Bool) (t : Node) : Option Node :=
  (descendants t).find? p

def findAllD (p : Node → Bool) (t : Node) : List Node :=
  (descendants t).filter p

/-! ### URL handling (`urllib.parse.urlparse` / `urljoin`) -/

structure UrlParts where
  scheme : String
  netloc : String
  path : String
  query : String
  frag : String
deriving Repr, DecidableEq

/-- Split at the first occurrence of `c`: chars before it, and the
chars after it when it occurs. -/
def splitFirst (c : Char) : List Char → List Char × Option (List Char)
  | [] => ([], none)
  | x :: xs =>
    if x = c then ([], some xs)
    else
      let r := splitFirst c xs
      (x :: r.1, r.2)

def isSchemeChar (c : Char) : Bool :=
  c.isAlpha || c.isDigit || c = '+' || c = '-' || c = '.'

def parseUrl (s : String) : UrlParts :=
  let p1 := splitFirst '#' s.data
  let frag := (p1.2.getD []).asString
  let p2 := splitFirst '?' p1.1
  let query := (p2.2.getD []).asString
  let core := p2.1
  let sp := splitFirst ':' core
  let hasScheme :=
    sp.2.isSome && !sp.1.isEmpty &&
      (match sp.1 with
       | c :: cs => c.isAlpha && cs.all isSchemeChar
       | [] => false)
  let scheme := if hasScheme then pyToLower sp.1.asString else ""
  let rest := if hasScheme then sp.2.getD [] else core
  match rest with
  | '/' :: '/' :: r =>
    let netloc := r.takeWhile (fun c => c ≠ '/')
    let path := r.drop netloc.length
    ⟨scheme, netloc.asString, path.asString, query, frag⟩
  | r => ⟨scheme, "", r.asString, query, frag⟩

/-- `urljoin(base, href)` for the base shapes the code builds
(`scheme://netloc`, empty path). -/
def urljoin (base href : String) : String :=
  if (parseUrl href).scheme ≠ "" then href
  else if startsWithB href "//" then (parseUrl base).scheme ++ ":" ++ href
  else if startsWithB href "/" then base ++ href
  else if href = "" then base
  else base ++ "/" ++ href

/-! ### The article-shape regular expressions (`news_patterns`),
hand-compiled; each `patNAt` checks a match starting at the head of a
suffix and `searchB` quantifies over all suffixes (`re.search`). -/

def searchB (p : List Char → Bool) (cs : List Char) : Bool :=
  cs.tails.any p

/-- Consume exactly `n` digits. -/
def eatDigits : Nat → List Char → Option (List Char)
  | 0, cs => some cs
  | n + 1, c :: cs => if c.isDigit then eatDigits n cs else none
  | _ + 1, [] => none

def eatChar (c : Char) : List Char → Option (List Char)
  | x :: xs => if x = c then some xs else none
  | [] => none

def eatLit (lit : List Char) (cs : List Char) : Option (List Char) :=
  if lit.isPrefixOf cs then some (cs.drop lit.length) else none

/-- `\d{1,2}/` with the regex's backtracking choice. -/
def eatD12Slash (cs : List Char) : Option (List Char) :=
  match eatDigits 2 cs >>= eatChar '/' with
  | some r => some r
  | none => eatDigits 1 cs >>= eatChar '/'

/-- Length of the leading digit run and the remainder after it. -/
def digitRun : List Char → Nat × List Char
  | [] => (0, [])
  | c :: cs =>
    if c.isDigit then
      let r := digitRun cs
      (r.1 + 1, r.2)
    else (0, c :: cs)

/-- `[a-z0-9-]`. -/
def isSlugChar (c : Char) : Bool :=
  ('a' ≤ c && c ≤ 'z') || ('0' ≤ c && c ≤ '9') || c = '-'

/-- Consume exactly `n` slug characters. -/
def eatSlug : Nat → List Char → Option (List Char)
  | 0, cs => some cs
  | n + 1, c :: cs => if isSlugChar c then eatSlug n cs else none
  | _ + 1, [] => none

def headSlug : Option (List Char) → Bool
  | some (c :: _) => isSlugChar c
  | _ => false

/-- `/\d{4}/\d{1,2}/\d{1,2}/`. -/
def pat1At (cs : List Char) : Bool :=
  (eatChar '/' cs >>= eatDigits 4 >>= eatChar '/' >>= eatD12Slash >>= eatD12Slash).isSome

/-- `/news/\d+`. -/
def pat2At (cs : List Char) : Bool :=
  (eatLit "/news/".data cs >>= eatDigits 1).isSome

/-- `/article/\d+`. -/
def pat3At (cs : List Char) : Bool :=
  (eatLit "/article/".data cs >>= eatDigits 1).isSome

/-- `/\d{4,}/\d{1,2}/\d{1,2}/[a-z0-9-]+`. -/
def pat4At (cs : List Char) : Bool :=
  match cs with
  | '/' :: r =>
    let dr := digitRun r
    decide (4 ≤ dr.1) && headSlug (eatChar '/' dr.2 >>= eatD12Slash >>= eatD12Slash)
  | _ => false

/-- `/news/[a-z0-9-]+`. -/
def pat5At (cs : List Char) : Bool :=
  headSlug (eatLit "/news/".data cs)

/-- `/article/[a-z0-9-]+`. -/
def pat6At (cs : List Char) : Bool :=
  headSlug (eatLit "/article/".data cs)

/-- `/post/[a-z0-9-]+`. -/
def pat7At (cs : List Char) : Bool :=
  headSlug (eatLit "/post/".data cs)

/-- `/story/[a-z0-9-]+`. -/
def pat8At (cs : List Char) : Bool :=
  headSlug (eatLit "/story/".data cs)

/-- `/[a-z0-9-]{10,}`. -/
def pat9At (cs : List Char) : Bool :=
  (eatChar '/' cs >>= eatSlug 10).isSome

/-- Some entry of `news_patterns` matches somewhere in the path
(the loops over the pattern list break at the first hit). -/
def newsPatternsHit (path : String) : Bool :=
  let cs := path.data
  searchB pat1At cs || searchB pat2At cs || searchB pat3At cs ||
  searchB pat4At cs || searchB pat5At cs || searchB pat6At cs ||
  searchB pat7At cs || searchB pat8At cs || searchB pat9At cs

/-! ### Link discovery (`detect_news_links`) -/

/-- `exclude_patterns`, transcribed verbatim. -/
def excludePatterns : List String :=
  ["/tag/", "/tags/", "/contacts", "/contact", "/about", "/sotrudnichestvo",
   "/view_file.pdf", "/search", "/login", "/register", "/auth",
   "/rss", "/advertising", "/privacy", "/terms", ".jpg", ".png", ".pdf",
   "/category/", "/categories/", "/section/", "/sections/", "/topics/",
   "/feed/", "/subscriptions/", "/subscribe/", "/newsletter", "/newsletters/",
   "/latest/", "/popular/", "/archive/", "/authors/", "/team/",
   "?utm_source=", "?from=", "/pages/", "/help/", "/support/", "/dc/",
   "/newspaper/", "/crypto/", "/industries/", "/gorod/"]

def attrStr : List (String × String) → String
  | [] => ""
  | (k, v) :: rest => " " ++ k ++ "=\"" ++ v ++ "\"" ++ attrStr rest

mutual
/-- Rendered markup of a node.  BeautifulSoup tags compare and hash by
their rendered markup (`__hash__` is based on `str(self)`), so this
string is the key of the `unique_links` deduplication set. -/
def markupOf : Node → String
  | .txt s => s
  | .elem _ tg a cs => "<" ++ tg ++ attrStr a ++ ">" ++ markupOfL cs ++ "</" ++ tg ++ ">"
def markupOfL : List Node → String
  | [] => ""
  | c :: cs => markupOf c ++ markupOfL cs
end

/-- A collected candidate link: the anchor's rendered-markup key, its
`href` and its visible text. -/
structure ALink where
  key : String
  href : String
  atext : String
deriving Repr, DecidableEq

def isAnchorWithHref (n : Node) : Bool :=
  isElem n && tagOf n == "a" && hasAttr n "href"

def mkALink (n : Node) : ALink :=
  ⟨markupOf n, getAttrD n "href" "", textOf n⟩

/-- The fourteen container selectors of the container pass, in order. -/
def containerSels : List (Node → Bool) :=
  [fun n => isElem n && tagOf n == "article",
   fun n => isElem n && tagOf n == "div" && (classesOf n).contains "article",
   fun n => isElem n && tagOf n == "div" && (classesOf n).contains "news",
   fun n => isElem n && tagOf n == "div" && (classesOf n).contains "post",
   fun n => isElem n && tagOf n == "li" && (classesOf n).contains "news-item",
   fun n => isElem n && (classesOf n).contains "news-list",
   fun n => isElem n && (classesOf n).contains "article-list",
   fun n => isElem n && (classesOf n).contains "post-list",
   fun n => isElem n && (classesOf n).contains "news-feed",
   fun n => isElem n && (classesOf n).contains "news-container",
   fun n => isElem n && (classesOf n).contains "articles-container",
   fun n => isElem n && (classesOf n).contains "posts-container",
   fun n => isElem n && getAttr n "data-testid" == some "latest-stream",
   fun n => isElem n && getAttr n "data-testid" == some "article-stream"]

def containerPass (t : Node) : List Node :=
  (containerSels.map (fun p => findAllD p t)).flatten

def listingKeywords : List String :=
  ["news", "article", "post", "story", "entry"]

/-- Fallback container scan: every `div` with a class attribute whose
space-joined, lowercased class string contains a listing keyword. -/
def genericDivPass (t : Node) : List Node :=
  findAllD (fun n =>
    isElem n && tagOf n == "div" && hasAttr n "class" &&
      listingKeywords.any (fun k =>
        substrB (pyToLower (joinSp (classesOf n))) k)) t

def headingTags : List String := ["h1", "h2", "h3", "h4"]

/-- Links collected inside one news container: anchors nested in
h1–h4 headings first, then anchors with visible text longer than 15. -/
def containerLinks (c : Node) : List ALink :=
  ((findAllD (fun n => isElem n && headingTags.contains (tagOf n)) c).filterMap
    (fun h => ((descendants h).find? isAnchorWithHref).map mkALink)) ++
  ((findAllD (fun n =>
      isAnchorWithHref n &&
        (textOf n ≠ "" && 15 < (textOf n).length : Bool)) c).map mkALink)

/-- Page-wide fallback when containers yielded no links: anchors inside
h2/h3 headings, then anchors whose text length lies strictly between
30 and 150. -/
def fallbackLinks (t : Node) : List ALink :=
  ((findAllD (fun n => isElem n && (tagOf n == "h2" || tagOf n == "h3")) t).filterMap
    (fun h => ((descendants h).find? isAnchorWithHref).map mkALink)) ++
  ((findAllD (fun n =>
      isAnchorWithHref n &&
        (textOf n ≠ "" && 30 < (textOf n).length && (textOf n).length < 150 : Bool)) t).map mkALink)

def collectLinks (t : Node) : List ALink :=
  let conts := containerPass t
  let conts := if conts.isEmpty then genericDivPass t else conts
  let ltc := (conts.map containerLinks).flatten
  if ltc.isEmpty then fallbackLinks t else ltc

/-- Markup-keyed set deduplication, first occurrence kept (anchors with
identical rendered markup are one set element). -/
def dedupByKey (seen : List String) : List ALink → List ALink
  | [] => []
  | l :: ls =>
    if seen.contains l.key then dedupByKey seen ls
    else l :: dedupByKey (l.key :: seen) ls

def skipHref (h : String) : Bool :=
  h = "" || startsWithB h "#" || startsWithB h "javascript:"

/-- The filters every candidate passes before scoring: non-empty,
non-fragment, non-script href; resolved host must contain the site's
host as a substring (Python's `in`); no exclusion-list entry may occur
in the lowercased absolute URL.  Returns the absolute URL and its
parse on success. -/
def evalLinkCommon (site : UrlParts) (base : String) (l : ALink) :
    Option (String × UrlParts) :=
  if skipHref l.href then none
  else
    let fu := urljoin base l.href
    let ph := parseUrl fu
    if !(substrB ph.netloc site.netloc) then none
    else if excludePatterns.any (fun p => substrB (pyToLower fu) p) then none
    else some (fu, ph)

/-- Path-segment heuristics: at least two non-empty segments, and the
last longer than 10 characters or some segment containing a digit. -/
def segHeuristic (path : String) : Bool :=
  let segments := (splitByP (fun c => c = '/') path.data).map List.asString
  if 2 ≤ segments.length then
    if segments ≠ [] && 10 < (segments.getLastD "").length then true
    else segments.any (fun s => s.data.any Char.isDigit)
  else false

def reportWords : List String :=
  ["says", "claims", "reports", "announced", "revealed", "launches", "introduces"]

/-- Anchor-text heuristic: headline-length text with a colon or a
reporting verb. -/
def textHeuristic (tx : String) : Bool :=
  tx ≠ "" && 30 < tx.length && tx.length < 200 &&
    (substrB tx ":" || reportWords.any (fun w => substrB (pyToLower tx) w))

def isLikelyNews (path tx : String) : Bool :=
  newsPatternsHit path || segHeuristic path || textHeuristic tx

/-- The per-link loop shared by the main pass and the last-resort pass
(the two differ only in the acceptance test).  Links failing the common
filters are skipped without reaching the cap check (`continue`);
evaluated links may be accepted and then hit the `len >= max_links`
break. -/
def scoreLoop (site : UrlParts) (base : String) (maxL : Nat)
    (acceptF : UrlParts → ALink → Bool) :
    List ALink → List String → List String
  | [], acc => acc
  | l :: ls, acc =>
    match evalLinkCommon site base l with
    | none => scoreLoop site base maxL acceptF ls acc
    | some (fu, ph) =>
      let acc2 :=
        if acceptF ph l && !(acc.contains fu) then acc ++ [fu]
        else acc
      if maxL ≤ acc2.length then acc2 else scoreLoop site base maxL acceptF ls acc2

/-- The main per-link loop: regex patterns, then path-segment
heuristics, then the anchor-text heuristic. -/
def discLoop (site : UrlParts) (base : String) (maxL : Nat) :
    List ALink → List String → List String :=
  scoreLoop site base maxL (fun ph l => isLikelyNews ph.path l.atext)

/-- The last-resort loop over every anchor on the page: same common
filters, but only the regex patterns decide acceptance. -/
def lastLoop (site : UrlParts) (base : String) (maxL : Nat) :
    List ALink → List String → List String :=
  scoreLoop site base maxL (fun ph _ => newsPatternsHit ph.path)

/-- Link `l` passes the common filters and the acceptance test with
absolute URL `u`. -/
def linkYields (site : UrlParts) (base : String) (acceptF : UrlParts → ALink → Bool)
    (l : ALink) (u : String) : Prop :=
  ∃ ph, evalLinkCommon site base l = some (u, ph) ∧ acceptF ph l = true

/-- `detect_news_links(url, max_links)` applied to an already fetched
page (`none` = fetch failure).  `ord` is the iteration order of the
markup-keyed deduplication set (`list(unique_links)`), which CPython
does not derive from the markup (it depends on heap addresses and the
hash seed).  The accepted URLs are returned in insertion order; the
source's final `list(news_links)` applies one more hash-seed-dependent
permutation of this set, so only membership, length and
permutation-class properties of the return value carry over to the
program's returned list. -/
def detect_news_links (url : String) (maxLinks : Nat) (page : Option Node)
    (ord : List ALink → List ALink) : List String :=
  match page with
  | none => []
  | some t =>
    let site := parseUrl url
    let base := site.scheme ++ "://" ++ site.netloc
    let links := ord (dedupByKey [] (collectLinks t))
    let found := discLoop site base maxLinks links []
    if found.isEmpty then
      lastLoop site base maxLinks
        ((findAllD isAnchorWithHref t).map mkALink) []
    else found

/-! ### Content extraction (`parse_news_content`) -/

/-- Title candidates, in source order: first `h1`, first element with a
title-ish class, `meta[property=og:title]`, `meta[name=title]`, the
`title` element. -/
def titleSelClasses : List String :=
  ["news-title", "article-title", "post-title", "entry-title", "headline", "title"]

def titleCandidates (t : Node) : List (Option Node) :=
  [findFirstD (fun n => isElem n && tagOf n == "h1") t,
   findFirstD (fun n =>
     isElem n && titleSelClasses.any (fun c => (classesOf n).contains c)) t,
   findFirstD (fun n =>
     isElem n && tagOf n == "meta" && getAttr n "property" == some "og:title") t,
   findFirstD (fun n =>
     isElem n && tagOf n == "meta" && getAttr n "name" == some "title") t,
   findFirstD (fun n => isElem n && tagOf n == "title") t]

/-- The title loop.  Every BeautifulSoup tag supports `.get`, so the
source's `hasattr(candidate, 'get')` test is true for every candidate
and each candidate contributes `candidate.get('content', '')` — the
`get_text` branch of the source is unreachable. -/
def titleLoop : List (Option Node) → String
  | [] => ""
  | none :: cs => titleLoop cs
  | some n :: cs =>
    let tt := getAttrD n "content" ""
    if tt ≠ "" then tt else titleLoop cs

/-- The fallback literal of line 266. -/
def fallbackTitle : String := "Без заголовка"

def resolveTitle (t : Node) : String :=
  let r := titleLoop (titleCandidates t)
  if r = "" then fallbackTitle else r

/-- The subtrees removed before paragraph extraction:
`nav, .nav, .navigation, .share, .social, .related, .comments,
.sidebar, aside, footer, header`. -/
def navTagList : List String := ["nav", "aside", "footer", "header"]

def navClassList : List String :=
  ["nav", "navigation", "share", "social", "related", "comments", "sidebar"]

def navMatch (n : Node) : Bool :=
  isElem n &&
    (navTagList.contains (tagOf n) ||
      navClassList.any (fun c => (classesOf n).contains c))

mutual
/-- `decompose()` of every nav-ish descendant (the matched subtrees
vanish entirely; the root itself is kept, since `select` only matches
descendants). -/
def pruneNav : Node → Node
  | .txt s => .txt s
  | .elem i tg a cs => .elem i tg a (pruneNavL cs)
def pruneNavL : List Node → List Node
  | [] => []
  | c :: cs =>
    if navMatch c then pruneNavL cs
    else pruneNav c :: pruneNavL cs
end

mutual
/-- Look a node up by identity in the current (possibly mutated) tree;
`none` models a reference whose tag was destroyed by `decompose`. -/
def findById (i : Nat) : Node → Option Node
  | .txt _ => none
  | .elem j tg a cs =>
    if j = i then some (.elem j tg a cs) else findByIdL i cs
def findByIdL (i : Nat) : List Node → Option Node
  | [] => none
  | c :: cs =>
    match findById i c with
    | some r => some r
    | none => findByIdL i cs
end

mutual
/-- Apply the nav decomposition at the node with identity `i`, in
place, in the whole tree. -/
def pruneAt (i : Nat) : Node → Node
  | .txt s => .txt s
  | .elem j tg a cs =>
    if j = i then pruneNav (.elem j tg a cs)
    else .elem j tg a (pruneAtL i cs)
def pruneAtL (i : Nat) : List Node → List Node
  | [] => []
  | c :: cs => pruneAt i c :: pruneAtL i cs
end

/-- The four content-container candidates of lines 272–277, looked up
in the pristine tree: the big comma selector, `div[itemprop=articleBody]`,
a `div` with a content-keyword substring in some class, a `div` with a
content-keyword substring in its id. -/
def contentSelClasses : List String :=
  ["article", "news-content", "post-content", "entry-content", "content",
   "article-body", "post-body", "story-body"]

def contentKeywords : List String :=
  ["content", "article", "news", "text", "body", "story"]

def containerCandidates (t : Node) : List (Option Node) :=
  [findFirstD (fun n =>
     isElem n && (tagOf n == "article" ||
       contentSelClasses.any (fun c => (classesOf n).contains c))) t,
   findFirstD (fun n =>
     isElem n && tagOf n == "div" && getAttr n "itemprop" == some "articleBody") t,
   findFirstD (fun n =>
     isElem n && tagOf n == "div" &&
       (classesOf n).any (fun c =>
         c ≠ "" && contentKeywords.any (fun k => substrB c k))) t,
   findFirstD (fun n =>
     isElem n && tagOf n == "div" &&
       (match getAttr n "id" with
        | some i => i ≠ "" && contentKeywords.any (fun k => substrB i k)
        | none => false)) t]

/-- Paragraph elements among the descendants. -/
def paraNodes (c : Node) : List Node :=
  findAllD (fun n => isElem n && tagOf n == "p") c

/-- `[p.get_text(strip=True) for p in paragraphs if len(...) > 20]`. -/
def filterParas (ps : List Node) : List String :=
  (ps.map textOf).filter (fun s => 20 < s.length)

/-- State threaded through body resolution: the (mutated) tree, the
winning filtered paragraph list (`content_text` is its space-join, and
is empty iff `winner = none`), and the last value assigned to the
`filtered_paragraphs` local. -/
structure BodyState where
  tree : Node
  winner : Option (List String)
  lastF : Option (List String)

/-- One step of strategy 1's container loop.  A found container first
has its nav-ish descendants decomposed (mutating the shared tree), then
its paragraphs are extracted; `filtered_paragraphs` is assigned whenever
the container has paragraphs, and a non-empty filtered list wins and
breaks the loop. -/
def strat1Step (st : BodyState) (cand : Option Node) : BodyState :=
  if st.winner.isSome then st
  else
    match cand with
    | none => st
    | some c =>
      match findById (nidOf c) st.tree with
      | none => st
      | some cur =>
        let t2 := pruneAt (nidOf c) st.tree
        let cur2 := pruneNav cur
        let ps := paraNodes cur2
        if ps.isEmpty then { st with tree := t2 }
        else
          let f := filterParas ps
          if f.isEmpty then { tree := t2, winner := st.winner, lastF := some f }
          else { tree := t2, winner := some f, lastF := some f }

/-- Strategy 2: `soup.find('main') or soup.find('body')` on the current
tree, same decomposition and filter; `filtered_paragraphs` is assigned
unconditionally when the region exists. -/
def strat2 (st : BodyState) : BodyState :=
  if st.winner.isSome then st
  else
    match
      (findFirstD (fun n => isElem n && tagOf n == "main") st.tree).orElse
        (fun _ => findFirstD (fun n => isElem n && tagOf n == "body") st.tree)
    with
    | none => st
    | some mc =>
      let t2 := pruneAt (nidOf mc) st.tree
      let f := filterParas (paraNodes (pruneNav mc))
      if f.isEmpty then { tree := t2, winner := st.winner, lastF := some f }
      else { tree := t2, winner := some f, lastF := some f }

/-- Strategy 3: every paragraph left in the current tree; no
decomposition; `filtered_paragraphs` is always assigned. -/
def strat3 (st : BodyState) : BodyState :=
  if st.winner.isSome then st
  else
    let f := filterParas (paraNodes st.tree)
    if f.isEmpty then { st with lastF := some f }
    else { tree := st.tree, winner := some f, lastF := some f }

def bodyResolve (t : Node) : BodyState :=
  strat3 (strat2 ((containerCandidates t).foldl strat1Step ⟨t, none, none⟩))

/-- The winning strategy's surviving paragraph list. -/
def bodyWinner (t : Node) : Option (List String) :=
  (bodyResolve t).winner

structure NewsItem where
  url : String
  title : String
  content : String
deriving Repr, DecidableEq

/-- The case-insensitive error-page markers of line 321. -/
def errorMarkers : List String :=
  ["404", "not found", "page not found", "страница не найдена"]

/-- The part of `parse_news_content` that runs on a successfully
fetched page: title resolution, body resolution, then the quality gate:
length ≥ 100, no error marker, at least 3 distinct entries in the last
assigned `filtered_paragraphs`. -/
def parsePage (url : String) (t : Node) : Option NewsItem :=
  match (bodyResolve t).winner with
  | none => none
  | some ws =>
    if (joinSp ws).length < 100 then none
    else if errorMarkers.any (fun m => substrB (pyToLower (joinSp ws)) m) then none
    else if (((bodyResolve t).lastF.getD []).dedup).length < 3 then none
    else some ⟨url, resolveTitle t, joinSp ws⟩

/-- `parse_news_content(url)` applied to an already fetched page
(`none` = fetch failure, which returns `None` at line 242). -/
def parse_news_content (url : String) (page : Option Node) : Option NewsItem :=
  match page with
  | none => none
  | some t => parsePage url t

/-! ### Orchestration (`process_site`, `parse_news`) -/

/-- What fetching and parsing one discovered link can do: succeed with
a page, yield no markup (fetch failure), or raise an unexpected
exception. -/
inductive Fetched where
  | page (t : Node)
  | noMarkup
  | raised

inductive LinkOutcome where
  | ok (item : NewsItem)
  | failed
  | raised

/-- Outcome of the `parse_news_content(news_url)` call for one link. -/
def linkStep (fetch : String → Fetched) (u : String) : LinkOutcome :=
  match fetch u with
  | .page t =>
    match parse_news_content u (some t) with
    | some a => .ok a
    | none => .failed
  | .noMarkup => .failed
  | .raised => .raised

/-- The per-link loop of `process_site`: successes are appended and the
loop breaks once `len(result) >= max_news`; an exception is caught by
the surrounding `try`, which returns the records accumulated so far. -/
def processLinks (step : String → LinkOutcome) (maxNews : Nat) :
    List String → List NewsItem → List NewsItem
  | [], acc => acc
  | u :: us, acc =>
    match step u with
    | .raised => acc
    | .failed => processLinks step maxNews us acc
    | .ok a =>
      let acc2 := acc ++ [a]
      if maxNews ≤ acc2.length then acc2 else processLinks step maxNews us acc2

/-- Per-site environment: the fetched root page, the link-set iteration
order, and the per-link fetch oracle. -/
structure SiteEnv where
  root : Option Node
  ord : List ALink → List ALink
  fetch : String → Fetched

/-- `process_site(url, max_news)`: discovery with
`max_links = max_news * 2`, then extraction per link. -/
def process_site (env : SiteEnv) (url : String) (maxNews : Nat) : List NewsItem :=
  let links := detect_news_links url (maxNews * 2) env.root env.ord
  if links.isEmpty then [] else processLinks (linkStep env.fetch) maxNews links []

structure NewsResponse where
  total : Nat
  news : List NewsItem
deriving Repr, DecidableEq

/-- The endpoint's default cap: `process_site` is called without a
`max_news` argument. -/
def defaultMaxNews : Nat := 5

/-- The `/parse_news` endpoint: an empty URL list is rejected with a
client error; otherwise every site is processed with the default cap
and the results concatenated. -/
def parse_news (envs : String → SiteEnv) (urls : List String) :
    Except String NewsResponse :=
  if urls.isEmpty then .error "Список URL-адресов не может быть пустым"
  else
    let allNews := (urls.map (fun u => process_site (envs u) u defaultMaxNews)).flatten
    .ok ⟨allNews.length, allNews⟩

/-- The records produced, in discovery order, by the links preceding
the first link whose processing raises (the whole tail after a raise is
lost to the site-level `except`). -/
def oksUntilRaise (step : String → LinkOutcome) : List String → List NewsItem
  | [] => []
  | u :: us =>
    match step u with
    | .raised => []
    | .failed => oksUntilRaise step us
    | .ok a => a :: oksUntilRaise step us

/-! ### Concrete fixtures used by the witnesses and counterexamples -/

def par1 : String := "First paragraph with plenty of text to pass the filter."
def par2 : String := "Second paragraph with plenty of text to pass the filter."
def par3 : String := "Third paragraph with plenty of text to pass the filter."

/-- An article page whose first `h1` has non-empty visible text and
which passes the whole quality gate. -/
def pageC1 : Node :=
  .elem 1 "html" []
    [.elem 2 "body" []
      [.elem 3 "h1" [] [.txt "Real Headline"],
       .elem 4 "article" []
        [.elem 5 "p" [] [.txt par1],
         .elem 6 "p" [] [.txt par2],
         .elem 7 "p" [] [.txt par3]]]]

/-- An article page with no title source at all (no heading, no
title-ish class, no meta tags, no title element). -/
def pageC5 : Node :=
  .elem 1 "html" []
    [.elem 2 "body" []
      [.elem 4 "article" []
        [.elem 5 "p" [] [.txt par1],
         .elem 6 "p" [] [.txt par2],
         .elem 7 "p" [] [.txt par3]]]]

def parDupA : String := "Repeated teaser paragraph body text one."
def parDupB : String := "Another distinct paragraph body text two."
def parDupC : String := "A third distinct paragraph body text three."

/-- An article page whose body container holds five paragraphs: one
long paragraph twice, two more long distinct ones, and a short one. -/
def pageC9 : Node :=
  .elem 1 "html" []
    [.elem 2 "head" []
      [.elem 3 "meta" [("property", "og:title"), ("content", "C9 page")] []],
     .elem 4 "body" []
      [.elem 5 "article" []
        [.elem 6 "p" [] [.txt parDupA],
         .elem 7 "p" [] [.txt parDupA],
         .elem 8 "p" [] [.txt parDupB],
         .elem 9 "p" [] [.txt parDupC],
         .elem 10 "p" [] [.txt "tiny text"]]]]

/-- A front page for `http://a.com` with two article-shaped links in a
news container. -/
def siteA : Node :=
  .elem 1 "html" []
    [.elem 2 "body" []
      [.elem 3 "div" [("class", "news-list")]
        [.elem 4 "h2" [] [.elem 5 "a" [("href", "/news/111")] [.txt "Front headline one"]],
         .elem 6 "h2" [] [.elem 7 "a" [("href", "/news/222")] [.txt "Front headline two"]]]]]

/-- A front page for `http://a.com` whose only candidate link points at
the different registrable domain `evila.com`, which merely contains
`a.com` as a substring. -/
def siteEvil : Node :=
  .elem 1 "html" []
    [.elem 2 "body" []
      [.elem 3 "div" [("class", "news-list")]
        [.elem 4 "h2" []
          [.elem 5 "a" [("href", "http://evila.com/news/123")] [.txt "Cross headline"]]]]]

def urlNews1 : String := "http://a.com/news/111"

def itemC1 : NewsItem := ⟨urlNews1, fallbackTitle, joinSp [par1, par2, par3]⟩

/-- Environment for `http://a.com`: the front page is `siteA`, the
first discovered article resolves to `pageC1`, everything else fails
to fetch. -/
def envA : SiteEnv :=
  ⟨some siteA, id, fun u => if u = urlNews1 then .page pageC1 else .noMarkup⟩

def itemC5 : NewsItem := ⟨"http://c5.test/x", fallbackTitle, joinSp [par1, par2, par3]⟩

def itemC9 : NewsItem :=
  ⟨"http://a.com/news/9", "C9 page", joinSp [parDupA, parDupA, parDupB, parDupC]⟩

def emptyListError : String := "Список URL-адресов не может быть пустым"

def itemU1 : NewsItem := ⟨"u1", "t1", "c1"⟩

/-- A per-link oracle whose second link raises: `u1` parses, `u2`
raises, `u3` would parse but is lost to the caught exception. -/
def stepRaise : String → LinkOutcome := fun u =>
  if u = "u1" then .ok itemU1
  else if u = "u2" then .raised
  else if u = "u3" then .ok ⟨"u3", "t3", "c3"⟩
  else .failed

/-! ## Helper lemmas -/

/-- A link surviving the common filters resolves to an absolute URL
whose parse is recorded, whose host passed the substring origin check,
and which contains no exclusion-list entry. -/
theorem evalLinkCommon_spec (site : UrlParts) (base : String) (l : ALink)
    (fu : String) (ph : UrlParts)
    (h : evalLinkCommon site base l = some (fu, ph)) :
    ph = parseUrl fu ∧ substrB ph.netloc site.netloc = true ∧
      ∀ p ∈ excludePatterns, substrB (pyToLower fu) p = false := by
  unfold evalLinkCommon at h
  split at h
  · simp at h
  · dsimp only at h
    split at h
    · simp at h
    · split at h
      · simp at h
      · next hnet hex =>
        simp only [Option.some.injEq, Prod.mk.injEq] at h
        obtain ⟨h1, h2⟩ := h
        subst h1; subst h2
        refine ⟨rfl, ?_, ?_⟩
        · simpa using hnet
        · intro p hp
          by_contra hc
          exact hex (List.any_eq_true.mpr ⟨p, hp, by simpa using hc⟩)

/-- Any property guaranteed by the common filters is an invariant of
the accumulating loop. -/
theorem scoreLoop_inv (site : UrlParts) (base : String) (maxL : Nat)
    (acceptF : UrlParts → ALink → Bool) (Q : String → Prop)
    (hQ : ∀ l fu ph, evalLinkCommon site base l = some (fu, ph) → Q fu) :
    ∀ ls acc, (∀ u ∈ acc, Q u) →
      ∀ u ∈ scoreLoop site base maxL acceptF ls acc, Q u := by
  intro ls
  induction ls with
  | nil =>
    intro acc hacc u hu
    simp only [scoreLoop] at hu
    exact hacc u hu
  | cons l ls ih =>
    intro acc hacc u hu
    simp only [scoreLoop] at hu
    revert hu
    split
    · exact fun hu => ih acc hacc u hu
    · next fu ph heval =>
      have hfu : Q fu := hQ l fu ph heval
      split
      · have hacc2 : ∀ v ∈ acc ++ [fu], Q v := by
          intro v hv
          rcases List.mem_append.mp hv with hv | hv
          · exact hacc v hv
          · have hvf : v = fu := by simpa using hv
            exact hvf ▸ hfu
        split
        · exact fun hu => hacc2 u hu
        · exact fun hu => ih _ hacc2 u hu
      · split
        · exact fun hu => hacc u hu
        · exact fun hu => ih _ hacc u hu

/-- Both discovery passes start from the empty set, so every returned
URL passed the common filters. -/
theorem detect_news_links_inv (url : String) (maxL : Nat) (page : Option Node)
    (ordf : List ALink → List ALink) (Q : String → Prop)
    (hQ : ∀ l fu ph,
      evalLinkCommon (parseUrl url)
        ((parseUrl url).scheme ++ "://" ++ (parseUrl url).netloc) l = some (fu, ph) → Q fu) :
    ∀ u ∈ detect_news_links url maxL page ordf, Q u := by
  intro u hu
  unfold detect_news_links at hu
  cases page with
  | none => simp at hu
  | some t =>
    dsimp only at hu
    revert hu
    split
    · exact fun hu => scoreLoop_inv _ _ _ _ Q hQ _ [] (by simp) u hu
    · exact fun hu => scoreLoop_inv _ _ _ _ Q hQ _ [] (by simp) u hu

/-- The extraction loop appends the successful records of the links
before the first raise, truncated by the cap (with the cap check placed
after the append, a cap of 0 still lets one record through). -/
theorem processLinks_eq_take (step : String → LinkOutcome) (m : Nat) :
    ∀ us acc, processLinks step m us acc =
      acc ++ (oksUntilRaise step us).take (max (m - acc.length) 1) := by
  intro us
  induction us with
  | nil => intro acc; simp [processLinks, oksUntilRaise]
  | cons u us ih =>
    intro acc
    simp only [processLinks, oksUntilRaise]
    cases hstep : step u with
    | raised => simp
    | failed => simpa using ih acc
    | ok a =>
      dsimp only
      split
      · next hle =>
        have hmax : max (m - acc.length) 1 = 1 := by
          simp only [List.length_append, List.length_cons, List.length_nil] at hle
          omega
        simp [hmax]
      · next hgt =>
        rw [ih]
        have hlen : acc.length + 1 < m := by
          simp only [List.length_append, List.length_cons, List.length_nil] at hgt
          omega
        have h1 : max (m - (acc ++ [a]).length) 1 = m - acc.length - 1 := by
          simp only [List.length_append, List.length_cons, List.length_nil]
          omega
        have h2 : max (m - acc.length) 1 = (m - acc.length - 1) + 1 := by omega
        rw [h1, h2, List.take_succ_cons]
        simp

theorem processLinks_length_le (step : String → LinkOutcome) (m : Nat) (us : List String) :
    (processLinks step m us []).length ≤ max m 1 := by
  rw [processLinks_eq_take]
  simp only [List.nil_append, List.length_take, Nat.sub_zero]
  omega

theorem process_site_length_le (env : SiteEnv) (url : String) (n : Nat) :
    (process_site env url n).length ≤ max n 1 := by
  unfold process_site
  dsimp only
  split
  · simp
  · exact processLinks_length_le _ _ _

/-- Strategy 1 steps preserve "the winner, once set, is the last
assigned `filtered_paragraphs`". -/
theorem strat1Step_pres (st : BodyState) (cand : Option Node)
    (h : ∀ w, st.winner = some w → st.lastF = some w) :
    ∀ w, (strat1Step st cand).winner = some w → (strat1Step st cand).lastF = some w := by
  intro w
  unfold strat1Step
  split
  · exact h w
  · next hns =>
    split
    · exact h w
    · split
      · exact h w
      · dsimp only
        split
        · exact h w
        · split
          · intro hw
            have : st.winner.isSome = true := Option.isSome_iff_exists.mpr ⟨w, hw⟩
            exact absurd this hns
          · simp

theorem strat2_pres (st : BodyState)
    (h : ∀ w, st.winner = some w → st.lastF = some w) :
    ∀ w, (strat2 st).winner = some w → (strat2 st).lastF = some w := by
  intro w
  unfold strat2
  split
  · exact h w
  · next hns =>
    split
    · exact h w
    · dsimp only
      split
      · intro hw
        have : st.winner.isSome = true := Option.isSome_iff_exists.mpr ⟨w, hw⟩
        exact absurd this hns
      · simp

theorem strat3_pres (st : BodyState)
    (h : ∀ w, st.winner = some w → st.lastF = some w) :
    ∀ w, (strat3 st).winner = some w → (strat3 st).lastF = some w := by
  intro w
  unfold strat3
  split
  · exact h w
  · next hns =>
    dsimp only
    split
    · intro hw
      have : st.winner.isSome = true := Option.isSome_iff_exists.mpr ⟨w, hw⟩
      exact absurd this hns
    · simp

theorem foldl_strat1_pres (cands : List (Option Node)) :
    ∀ st : BodyState, (∀ w, st.winner = some w → st.lastF = some w) →
      ∀ w, (cands.foldl strat1Step st).winner = some w →
        (cands.foldl strat1Step st).lastF = some w := by
  induction cands with
  | nil => intro st h; exact h
  | cons c cs ih =>
    intro st h
    exact ih (strat1Step st c) (strat1Step_pres st c h)

/-- Whenever some strategy wins, the `filtered_paragraphs` local read
by the uniqueness gate is exactly the winning strategy's list (the
latent-coupling concern of the spec's design notes does not bite: every
strategy that assigns the local either wins with that very list or
leaves the winner unset, and later strategies reassign it). -/
theorem bodyResolve_lastF (t : Node) :
    ∀ w, (bodyResolve t).winner = some w → (bodyResolve t).lastF = some w := by
  unfold bodyResolve
  exact strat3_pres _ (strat2_pres _ (foldl_strat1_pres _ _ (by intro w hw; simp at hw)))

/-- Shape of any successful extraction: the record is built from the
winning paragraph list, and all three quality-gate tests passed. -/
theorem parse_news_content_some (url : String) (t : Node) (a : NewsItem)
    (h : parse_news_content url (some t) = some a) :
    ∃ ws, bodyWinner t = some ws ∧
      a = ⟨url, resolveTitle t, joinSp ws⟩ ∧
      ¬ (joinSp ws).length < 100 ∧
      (errorMarkers.any (fun m => substrB (pyToLower (joinSp ws)) m)) = false ∧
      ¬ ((((bodyResolve t).lastF.getD []).dedup).length < 3) := by
  rw [show parse_news_content url (some t) = parsePage url t from rfl] at h
  unfold parsePage at h
  revert h
  split
  · exact fun h => absurd h (by simp)
  · next ws hws =>
    split
    · exact fun h => absurd h (by simp)
    · split
      · exact fun h => absurd h (by simp)
      · split
        · exact fun h => absurd h (by simp)
        · next h100 hmark hded =>
          intro h
          refine ⟨ws, hws, ?_, h100, by simpa using hmark, hded⟩
          exact (Option.some.inj h).symm

/-- If no title candidate carries a non-empty `content` attribute, the
loop yields the empty string. -/
theorem titleLoop_empty : ∀ l : List (Option Node),
    (∀ c ∈ l.filterMap id, getAttrD c "content" "" = "") → titleLoop l = "" := by
  intro l
  induction l with
  | nil => intro _; rfl
  | cons c cs ih =>
    intro h
    cases c with
    | none => exact ih (fun x hx => h x (by simpa using hx))
    | some n =>
      have hn : getAttrD n "content" "" = "" := h n (by simp)
      simp only [titleLoop, hn]
      simpa using ih (fun x hx => h x (by simp [hx]))

/-- When the cap cannot bind (more capacity than links), the loop never
breaks and the result's membership is exactly: already accumulated, or
yielded by some processed link. -/
theorem scoreLoop_mem_of_no_cap (site : UrlParts) (base : String) (maxL : Nat)
    (acceptF : UrlParts → ALink → Bool) :
    ∀ (ls : List ALink) (acc : List String), acc.length + ls.length < maxL →
      ∀ u, u ∈ scoreLoop site base maxL acceptF ls acc ↔
        u ∈ acc ∨ ∃ l ∈ ls, linkYields site base acceptF l u := by
  intro ls
  induction ls with
  | nil =>
    intro acc hlen u
    simp [scoreLoop]
  | cons l ls ih =>
    intro acc hlen u
    simp only [scoreLoop]
    rw [List.exists_mem_cons_iff]
    cases heval : evalLinkCommon site base l with
    | none =>
      rw [ih acc (by simp at hlen ⊢; omega) u]
      have hy : ¬ linkYields site base acceptF l u := by
        rintro ⟨ph, hph, -⟩
        simp [heval] at hph
      tauto
    | some p =>
      obtain ⟨fu, ph⟩ := p
      dsimp only
      have hy : linkYields site base acceptF l u ↔ (acceptF ph l = true ∧ u = fu) := by
        constructor
        · rintro ⟨ph2, hph2, hacc⟩
          rw [heval] at hph2
          simp only [Option.some.injEq, Prod.mk.injEq] at hph2
          obtain ⟨hu, hp⟩ := hph2
          subst hu; subst hp
          exact ⟨hacc, rfl⟩
        · rintro ⟨hacc, hu⟩
          subst hu
          exact ⟨ph, heval, hacc⟩
      have hbreak :
          ¬ (maxL ≤ (if acceptF ph l && !(acc.contains fu) then acc ++ [fu] else acc).length) := by
        split <;> simp at hlen ⊢ <;> omega
      rw [if_neg hbreak]
      rw [ih _ (by split <;> simp at hlen ⊢ <;> omega) u]
      rw [hy]
      by_cases hacc : acceptF ph l = true
      · by_cases hc : acc.contains fu = true
        · have hfumem : fu ∈ acc := by
            have := List.elem_iff.mp hc
            simpa using this
          simp only [hacc, hc, Bool.not_true, Bool.and_false, if_neg]
          constructor
          · tauto
          · rintro (h | ⟨-, rfl⟩ | h) <;> tauto
        · have hcf : acc.contains fu = false := by simpa using hc
          simp only [hacc, hcf, Bool.not_false, Bool.and_true, if_pos]
          rw [List.mem_append]
          simp only [List.mem_singleton]
          tauto
      · have haccf : acceptF ph l = false := by simpa using hacc
        simp only [haccf, Bool.false_and, if_neg]
        constructor
        · tauto
        · rintro (h | ⟨hT, -⟩ | h)
          · tauto
          · simp [haccf] at hT
          · tauto

/-- The accumulating loop preserves distinctness (a URL is appended
only when `full_url not in news_links`). -/
theorem scoreLoop_nodup (site : UrlParts) (base : String) (maxL : Nat)
    (acceptF : UrlParts → ALink → Bool) :
    ∀ (ls : List ALink) (acc : List String), acc.Nodup →
      (scoreLoop site base maxL acceptF ls acc).Nodup := by
  intro ls
  induction ls with
  | nil => intro acc h; simpa [scoreLoop] using h
  | cons l ls ih =>
    intro acc h
    simp only [scoreLoop]
    cases heval : evalLinkCommon site base l with
    | none => exact ih acc h
    | some p =>
      obtain ⟨fu, ph⟩ := p
      dsimp only
      split
      · next hcond =>
        simp only [Bool.and_eq_true, Bool.not_eq_true'] at hcond
        have hnm : fu ∉ acc := by
          intro hm
          have hcv : acc.contains fu = true := List.elem_eq_true_of_mem hm
          rw [hcond.2] at hcv
          exact Bool.false_ne_true hcv
        have hacc2 : (acc ++ [fu]).Nodup := by simp [List.nodup_append, h, hnm]
        split
        · exact hacc2
        · exact ih _ hacc2
      · split
        · exact h
        · exact ih _ h

/-- Two orders of the same candidate set produce, under a non-binding
cap, permutations of the same accepted URL set. -/
theorem scoreLoop_perm (site : UrlParts) (base : String) (maxL : Nat)
    (acceptF : UrlParts → ALink → Bool) (ls1 ls2 : List ALink)
    (hp : ls1.Perm ls2) (hcap1 : ls1.length < maxL) :
    (scoreLoop site base maxL acceptF ls1 []).Perm
      (scoreLoop site base maxL acceptF ls2 []) := by
  have hcap2 : ls2.length < maxL := hp.length_eq ▸ hcap1
  refine (List.perm_ext_iff_of_nodup
    (scoreLoop_nodup site base maxL acceptF ls1 [] (by simp))
    (scoreLoop_nodup site base maxL acceptF ls2 [] (by simp))).mpr ?_
  intro u
  rw [scoreLoop_mem_of_no_cap site base maxL acceptF ls1 [] (by simpa using hcap1) u,
      scoreLoop_mem_of_no_cap site base maxL acceptF ls2 [] (by simpa using hcap2) u]
  simp only [List.not_mem_nil, false_or]
  constructor
  · rintro ⟨l, hl, hy⟩
    exact ⟨l, hp.mem_iff.mp hl, hy⟩
  · rintro ⟨l, hl, hy⟩
    exact ⟨l, hp.mem_iff.mpr hl, hy⟩

/-- Congruence of the empty-fallback branch under permutation. -/
theorem perm_ite_empty {α : Type} (alt r1 r2 : List α) (h : r1.Perm r2) :
    (if r1.isEmpty then alt else r1).Perm (if r2.isEmpty then alt else r2) := by
  by_cases h1 : r1.isEmpty
  · have h1n := List.isEmpty_iff.mp h1
    have h2n : r2 = [] := by
      rw [h1n] at h
      exact h.symm.eq_nil
    rw [if_pos h1, if_pos (List.isEmpty_iff.mpr h2n)]
  · have h2 : ¬ r2.isEmpty = true := by
      intro hc
      have h2n := List.isEmpty_iff.mp hc
      rw [h2n] at h
      exact h1 (List.isEmpty_iff.mpr h.eq_nil)
    rw [if_neg h1, if_neg h2]
    exact h

/-- The discovery result, as a set, does not depend on the iteration
order of the deduplicated candidate set when the cap is not binding:
any two orders that enumerate that set yield permutations of each
other. -/
theorem detect_news_links_perm (url : String) (maxL : Nat) (t : Node)
    (ord1 ord2 : List ALink → List ALink)
    (h1 : (ord1 (dedupByKey [] (collectLinks t))).Perm (dedupByKey [] (collectLinks t)))
    (h2 : (ord2 (dedupByKey [] (collectLinks t))).Perm (dedupByKey [] (collectLinks t)))
    (hcap : (dedupByKey [] (collectLinks t)).length < maxL) :
    (detect_news_links url maxL (some t) ord1).Perm
      (detect_news_links url maxL (some t) ord2) := by
  have hp : (ord1 (dedupByKey [] (collectLinks t))).Perm
      (ord2 (dedupByKey [] (collectLinks t))) := h1.trans h2.symm
  have hres : (discLoop (parseUrl url) ((parseUrl url).scheme ++ "://" ++ (parseUrl url).netloc)
        maxL (ord1 (dedupByKey [] (collectLinks t))) []).Perm
      (discLoop (parseUrl url) ((parseUrl url).scheme ++ "://" ++ (parseUrl url).netloc)
        maxL (ord2 (dedupByKey [] (collectLinks t))) []) := by
    unfold discLoop
    exact scoreLoop_perm _ _ _ _ _ _ hp (by rw [h1.length_eq]; exact hcap)
  unfold detect_news_links
  dsimp only
  exact perm_ite_empty _ _ _ hres

/-! ## Claim theorems -/

/-- Claim C1 (code bug): the claim says an ordinary title candidate
contributes its visible text, so a page whose first `h1` has non-empty
visible text gets that text as the title.  The code instead evaluates
`candidate.get('content', '')` for every candidate — every tree element
supports attribute lookup, so the `hasattr` test never selects the
visible-text branch — and on `pageC1` (whose `h1` reads
"Real Headline" and which passes the whole quality gate) it returns the
fallback title instead of the heading text. -/
theorem c1_title_reads_content_attribute :
    (findFirstD (fun n => isElem n && tagOf n == "h1") pageC1).map textOf =
      some "Real Headline" ∧
    ("Real Headline" ≠ "") ∧
    (parse_news_content urlNews1 (some pageC1)).map NewsItem.title = some fallbackTitle ∧
    fallbackTitle ≠ "Real Headline" := by decide

/-- Claim C2 (confirmed): every record returned by the extraction
engine has content of length at least 100, contains no error-page
marker case-insensitively, and is backed by a winning paragraph list
with at least 3 distinct members. -/
theorem c2_quality_gate (url : String) (t : Node) (a : NewsItem)
    (h : parse_news_content url (some t) = some a) :
    100 ≤ a.content.length ∧
    (∀ m ∈ errorMarkers, substrB (pyToLower a.content) m = false) ∧
    ∃ ws, bodyWinner t = some ws ∧ a.content = joinSp ws ∧ 3 ≤ ws.dedup.length := by
  obtain ⟨ws, hws, ha, h100, hmark, hded⟩ := parse_news_content_some url t a h
  subst ha
  refine ⟨by simpa using Nat.not_lt.mp h100, ?_, ws, hws, rfl, ?_⟩
  · intro m hm
    by_contra hc
    have hany : errorMarkers.any (fun m => substrB (pyToLower (joinSp ws)) m) = true :=
      List.any_eq_true.mpr ⟨m, hm, by simpa using hc⟩
    simp [hany] at hmark
  · have hl := bodyResolve_lastF t ws hws
    rw [hl] at hded
    simp only [Option.getD_some] at hded
    omega

/-- Witness for C2 at a concrete accepted page. -/
theorem c2_quality_gate_witness :
    parse_news_content urlNews1 (some pageC1) = some itemC1 ∧
    (100 ≤ itemC1.content.length ∧
     (∀ m ∈ errorMarkers, substrB (pyToLower itemC1.content) m = false) ∧
     ∃ ws, bodyWinner pageC1 = some ws ∧ itemC1.content = joinSp ws ∧ 3 ≤ ws.dedup.length) :=
  ⟨by decide, c2_quality_gate urlNews1 pageC1 itemC1 (by decide)⟩

/-- Claim C3 (counterexample): with `maxNews = 0` the orchestrator can
return one record, because both cap checks run only after an append, so
the claimed bound `len ≤ 0` fails. -/
theorem c3_cap_zero_counterexample :
    (process_site envA "http://a.com" 0).length = 1 ∧
    ¬ ((process_site envA "http://a.com" 0).length ≤ 0) := by decide

/-- Claim C3 (amended): for every site and every `n`, the result list
has length at most `max n 1`; in particular the claimed cap `n` holds
for every `n ≥ 1`, and `maxNews = 0` admits exactly one extra record. -/
theorem c3_cap_amended (env : SiteEnv) (url : String) (n : Nat) :
    (process_site env url n).length ≤ max n 1 :=
  process_site_length_le env url n

/-- Claim C4 (counterexample): the origin check is a substring test, so
a link to the different registrable domain `evila.com` — which merely
contains the site host `a.com` — is returned by discovery. -/
theorem c4_origin_counterexample :
    detect_news_links "http://a.com" 10 (some siteEvil) id = ["http://evila.com/news/123"] ∧
    (parseUrl "http://evila.com/news/123").netloc ≠ (parseUrl "http://a.com").netloc := by
  decide

/-- Claim C4 (amended): every URL returned by discovery has a host that
contains the site's host as a substring (not necessarily equal to it). -/
theorem c4_origin_amended (url : String) (maxL : Nat) (page : Option Node)
    (ordf : List ALink → List ALink) (u : String)
    (hu : u ∈ detect_news_links url maxL page ordf) :
    substrB (parseUrl u).netloc (parseUrl url).netloc = true := by
  refine detect_news_links_inv url maxL page ordf
    (fun v => substrB (parseUrl v).netloc (parseUrl url).netloc = true) ?_ u hu
  intro l fu ph heval
  obtain ⟨hph, hnet, -⟩ := evalLinkCommon_spec _ _ _ _ _ heval
  exact hph ▸ hnet

/-- Witness for the amended C4. -/
theorem c4_origin_amended_witness :
    "http://a.com/news/111" ∈ detect_news_links "http://a.com" 10 (some siteA) id ∧
    substrB (parseUrl "http://a.com/news/111").netloc (parseUrl "http://a.com").netloc = true :=
  ⟨by decide, c4_origin_amended "http://a.com" 10 (some siteA) id _ (by decide)⟩

/-- Claim C5 (counterexample): on a page with no title source at all
the returned title is the fixed literal "Без заголовка", not the
literal "untitled" stated by the claim. -/
theorem c5_fallback_counterexample :
    parse_news_content "http://c5.test/x" (some pageC5) = some itemC5 ∧
    itemC5.title = fallbackTitle ∧
    fallbackTitle ≠ "untitled" ∧
    ((titleCandidates pageC5).filterMap id).length = 0 := by decide

/-- Claim C5 (amended): if no title candidate yields text under the
code's reading (a non-empty `content` attribute — see C1), the returned
record carries the fixed fallback literal "Без заголовка". -/
theorem c5_fallback_amended (url : String) (t : Node) (a : NewsItem)
    (hcand : ∀ c ∈ (titleCandidates t).filterMap id, getAttrD c "content" "" = "")
    (h : parse_news_content url (some t) = some a) :
    a.title = fallbackTitle := by
  obtain ⟨ws, hws, ha, -, -, -⟩ := parse_news_content_some url t a h
  subst ha
  show resolveTitle t = fallbackTitle
  unfold resolveTitle
  simp [titleLoop_empty _ hcand]

/-- Witness for the amended C5. -/
theorem c5_fallback_amended_witness :
    parse_news_content "http://c5.test/x" (some pageC5) = some itemC5 ∧
    itemC5.title = fallbackTitle :=
  ⟨by decide, c5_fallback_amended "http://c5.test/x" pageC5 itemC5 (by decide) (by decide)⟩

/-- Claim C6 (confirmed): a URL whose lowercased absolute form contains
an exclusion-list entry is never returned by discovery — in the main
pass and the last-resort pass alike, the exclusion test precedes any
pattern match, so every returned URL is exclusion-free. -/
theorem c6_exclusion_precedence (url : String) (maxL : Nat) (page : Option Node)
    (ordf : List ALink → List ALink) (u p : String)
    (hu : u ∈ detect_news_links url maxL page ordf) (hp : p ∈ excludePatterns) :
    substrB (pyToLower u) p = false := by
  refine detect_news_links_inv url maxL page ordf
    (fun v => ∀ q ∈ excludePatterns, substrB (pyToLower v) q = false) ?_ u hu p hp
  intro l fu ph heval
  exact (evalLinkCommon_spec _ _ _ _ _ heval).2.2

/-- Witness for C6. -/
theorem c6_exclusion_precedence_witness :
    "http://a.com/news/111" ∈ detect_news_links "http://a.com" 10 (some siteA) id ∧
    "/tag/" ∈ excludePatterns ∧
    substrB (pyToLower "http://a.com/news/111") "/tag/" = false :=
  ⟨by decide, by decide,
   c6_exclusion_precedence "http://a.com" 10 (some siteA) id _ _ (by decide) (by decide)⟩

/-- Claim C7 (confirmed): the endpoint rejects only the empty list; a
non-empty batch always succeeds, with every site contributing
independently; and within one site, the extraction loop returns exactly
the records of the links preceding the first raised exception (capped),
so a failure costs only that site's unprocessed tail. -/
theorem c7_error_isolation (envs : String → SiteEnv) (urls : List String)
    (step : String → LinkOutcome) (m : Nat) (us : List String) :
    (urls = [] → parse_news envs urls = .error emptyListError) ∧
    (urls ≠ [] →
      parse_news envs urls =
        .ok ⟨((urls.map (fun u => process_site (envs u) u defaultMaxNews)).flatten).length,
             (urls.map (fun u => process_site (envs u) u defaultMaxNews)).flatten⟩) ∧
    processLinks step m us [] = (oksUntilRaise step us).take (max m 1) := by
  refine ⟨?_, ?_, ?_⟩
  · intro h; subst h; rfl
  · intro h
    unfold parse_news
    rw [if_neg (by simpa [List.isEmpty_iff] using h)]
  · simpa using processLinks_eq_take step m us []

/-- Witness for C7: a batch of one site, and a link list whose second
link raises — the first link's record survives, the third is lost. -/
theorem c7_error_isolation_witness :
    parse_news (fun _ => envA) ["http://a.com"] =
      .ok ⟨(((["http://a.com"]).map
              (fun u => process_site ((fun _ => envA) u) u defaultMaxNews)).flatten).length,
           ((["http://a.com"]).map
              (fun u => process_site ((fun _ => envA) u) u defaultMaxNews)).flatten⟩ ∧
    processLinks stepRaise 5 ["u1", "u2", "u3"] [] =
      (oksUntilRaise stepRaise ["u1", "u2", "u3"]).take (max 5 1) ∧
    oksUntilRaise stepRaise ["u1", "u2", "u3"] = [itemU1] :=
  ⟨(c7_error_isolation (fun _ => envA) ["http://a.com"] stepRaise 5 ["u1", "u2", "u3"]).2.1
      (by decide),
   (c7_error_isolation (fun _ => envA) ["http://a.com"] stepRaise 5 ["u1", "u2", "u3"]).2.2,
   by decide⟩

/-- Claim C8 (counterexample): discovery is not a function of markup
and parameters alone.  Under the binding cap `max_links = 1`, two
iteration orders of the markup-keyed deduplication set (the second a
permutation of the first, as a set iteration may produce on another
run) accept different URL sets: `/news/111` is discovered under one
order and not under the other.  The membership conjuncts make the
refutation independent of the further hash-dependent order of the
returned `list(news_links)`. -/
theorem c8_determinism_counterexample :
    urlNews1 ∈ detect_news_links "http://a.com" 1 (some siteA) id ∧
    urlNews1 ∉ detect_news_links "http://a.com" 1 (some siteA) List.reverse ∧
    detect_news_links "http://a.com" 1 (some siteA) id ≠
      detect_news_links "http://a.com" 1 (some siteA) List.reverse ∧
    (dedupByKey [] (collectLinks siteA)).reverse.Perm (dedupByKey [] (collectLinks siteA)) :=
  ⟨by decide, by decide, by decide, List.reverse_perm _⟩

/-- Claim C8 (amended): what the markup and parameters do determine is
the accepted URL set whenever the cap is not binding — any two
iteration orders of the deduplicated candidate set (permutations of it)
make discovery return permutations of the same URL set; with a binding
cap even the accepted set varies (see the counterexample), and the
returned list's order is a set-iteration order in any case.  Extraction
takes no iteration order at all: the source's only use of a set is the
cardinality test of the quality gate, so `extractArticle` is a function
of url and markup alone. -/
theorem c8_determinism_amended (url : String) (maxL : Nat) (t : Node)
    (ord1 ord2 : List ALink → List ALink)
    (h1 : (ord1 (dedupByKey [] (collectLinks t))).Perm (dedupByKey [] (collectLinks t)))
    (h2 : (ord2 (dedupByKey [] (collectLinks t))).Perm (dedupByKey [] (collectLinks t)))
    (hcap : (dedupByKey [] (collectLinks t)).length < maxL) :
    (detect_news_links url maxL (some t) ord1).Perm
      (detect_news_links url maxL (some t) ord2) ∧
    ∀ (u : String) (pg : Option Node), parse_news_content u pg = parse_news_content u pg :=
  ⟨detect_news_links_perm url maxL t ord1 ord2 h1 h2 hcap, fun _ _ => rfl⟩

/-- Witness for the amended C8: the two concrete set orders of the
counterexample, under a non-binding cap, yield permutations of the same
accepted set. -/
theorem c8_determinism_amended_witness :
    ((detect_news_links "http://a.com" 10 (some siteA) id).Perm
      (detect_news_links "http://a.com" 10 (some siteA) List.reverse)) ∧
    ∀ (u : String) (pg : Option Node), parse_news_content u pg = parse_news_content u pg :=
  c8_determinism_amended "http://a.com" 10 siteA id List.reverse
    (by decide) (by decide) (by decide)

/-- Claim C9 (counterexample): a surviving paragraph occurring twice in
the body container appears twice in the returned content — the join
keeps multiplicities, contradicting the claim that only unique
paragraphs are kept. -/
theorem c9_dedup_counterexample :
    parse_news_content "http://a.com/news/9" (some pageC9) = some itemC9 ∧
    itemC9.content = joinSp [parDupA, parDupA, parDupB, parDupC] ∧
    itemC9.content ≠ joinSp [parDupA, parDupB, parDupC] := by decide

/-- Claim C9 (amended): the returned body is the space-join of all
surviving (> 20 character) paragraphs of the winning strategy in
document order, duplicates included; uniqueness only feeds the
at-least-3-distinct gate. -/
theorem c9_body_join_keeps_duplicates (url : String) (t : Node) (a : NewsItem)
    (h : parse_news_content url (some t) = some a) :
    a.content = joinSp ((bodyWinner t).getD []) := by
  obtain ⟨ws, hws, ha, -, -, -⟩ := parse_news_content_some url t a h
  subst ha
  simp [hws]

/-- Witness for the amended C9, on the page whose winning list holds a
duplicated paragraph. -/
theorem c9_body_join_keeps_duplicates_witness :
    bodyWinner pageC9 = some [parDupA, parDupA, parDupB, parDupC] ∧
    itemC9.content = joinSp ((bodyWinner pageC9).getD []) :=
  ⟨by decide,
   c9_body_join_keeps_duplicates "http://a.com/news/9" pageC9 itemC9 (by decide)⟩

/-- Claim C10 (confirmed): the endpoint always processes sites with the
default cap of 5 (no request field can change it), so each site
contributes at most 5 records to the response. -/
theorem c10_default_cap (envs : String → SiteEnv) (urls : List String) (h : urls ≠ []) :
    parse_news envs urls =
      .ok ⟨((urls.map (fun u => process_site (envs u) u defaultMaxNews)).flatten).length,
           (urls.map (fun u => process_site (envs u) u defaultMaxNews)).flatten⟩ ∧
    defaultMaxNews = 5 ∧
    ∀ u : String, (process_site (envs u) u defaultMaxNews).length ≤ 5 := by
  refine ⟨?_, rfl, ?_⟩
  · unfold parse_news
    rw [if_neg (by simpa [List.isEmpty_iff] using h)]
  · intro u
    have hle := process_site_length_le (envs u) u defaultMaxNews
    have hmax : max defaultMaxNews 1 = 5 := rfl
    omega

/-- Witness for C10. -/
theorem c10_default_cap_witness :
    parse_news (fun _ => envA) ["http://a.com"] =
      .ok ⟨(((["http://a.com"]).map
              (fun u => process_site ((fun _ => envA) u) u defaultMaxNews)).flatten).length,
           ((["http://a.com"]).map
              (fun u => process_site ((fun _ => envA) u) u defaultMaxNews)).flatten⟩ ∧
    defaultMaxNews = 5 ∧
    ∀ u : String, (process_site ((fun _ => envA) u) u defaultMaxNews).length ≤ 5 :=
  c10_default_cap (fun _ => envA) ["http://a.com"] (by decide)

end NewsParser
